import Mathlib
/-!
Verification of the RocketChatBot repository (newAM/RocketChatBot).

Shallow embedding of `src/rocketchatbot.py` (the realtime client: request
correlator, read-loop event classifier, and chat dispatcher) and of
`src/args.py` (the non-terminating argument-parser adapter).

Conventions of the embedding:
* Python dicts keyed by strings become association lists
  (`alookup` / `ainsert` / `aerase` mirror `d[k]`, `d[k] = v`, `del d[k]`).
* `asyncio.Event` becomes a `Bool` (set / unset) stored in the map
  `completion_event`; `await event.wait()` succeeding corresponds to the
  stored flag being `true`.
* `time.monotonic()` readings are modelled as `Int` values supplied to each
  dispatch step (the code reads the clock once per check; the second read at
  the store, line 384, can only be later, so a single `now` per task is a
  sound model of the separation the code enforces).
* Exceptions become `Except`; a coroutine handler is a total function
  returning `Except Unit (Option String)` (`.error` = raised, logged).
* `copy.deepcopy` on the stored payload is value copying, i.e. the identity
  on our immutable values.
-/
namespace RocketChatBot

/-- Lookup in an association list, mirroring Python `d[k]` (where present). -/
def alookup {β : Type} (k : String) : List (String × β) → Option β
  | [] => none
  | (k2, v) :: rest => if k2 = k then some v else alookup k rest

/-- Update/insert, mirroring Python `d[k] = v`: an existing key keeps its
position and gets the new value, a fresh key is appended (dict insertion
order). -/
def ainsert {β : Type} (k : String) (v : β) : List (String × β) → List (String × β)
  | [] => [(k, v)]
  | (k2, v2) :: rest => if k2 = k then (k, v) :: rest else (k2, v2) :: ainsert k v rest

/-- Deletion, mirroring Python `del d[k]`. -/
def aerase {β : Type} (k : String) : List (String × β) → List (String × β)
  | [] => []
  | (k2, v2) :: rest => if k2 = k then aerase k rest else (k2, v2) :: aerase k rest

/-- State of the request correlator (`rocketchatbot.py` lines 93 to 94):
`_completion_event` maps an outstanding correlation id to its
`asyncio.Event` (the `Bool` is the set flag), `_completion` maps it to the
stored result (`none` models the JSON `null` stored for a `nosub` frame, so
the slot holds an `Option V`). -/
structure CorrState (V : Type) where
  completion_event : List (String × Bool)
  completion : List (String × Option V)

/-- Inbound frame after JSON decoding, discriminated on the `msg` field as
in `_read_loop` (lines 306 to 336).  `changed` carries the two fields the
code looks up (absent keys are `none`); `other` is a frame with an
unrecognized `msg` value; `noMsg` is a frame without a `msg` key. -/
inductive Frame (V : Type)
  | ping
  | connected
  | result (id : String) (payload : V)
  | nosub (id : String)
  | changed (collection : Option String) (eventName : Option String) (payload : V)
  | other (tag : String)
  | noMsg
deriving DecidableEq

/-- Correlation id carried by a frame, when the classifier would use one. -/
def frameId {V : Type} : Frame V → Option String
  | .result id _ => some id
  | .nosub id => some id
  | _ => none

/-- Observable effects of the read loop other than the correlator maps. -/
inductive ReadOut (V : Type)
  | pong
  | connectedSet
  | chatEnq (payload : V)
  | nopeLog
deriving DecidableEq

/-- Result of classifying one frame: either the loop continues with new
state and outputs, or the body raised (the `except` at lines 337 to 339
logs `read loop died` and re-raises, so the loop terminates). -/
inductive StepRes (V : Type)
  | ok (st : CorrState V) (outs : List (ReadOut V))
  | died (st : CorrState V)

/-- One iteration of `_read_loop` (lines 296 to 336).  On a `result` frame
the code first stores `_completion[id] = data["result"]` and then does
`_completion_event[id].set()`; if the id is not a registered pending id the
second lookup raises `KeyError` with the completion slot already written.
`nosub` stores `None` instead of the payload.  A `changed` frame for the
subscribed chat stream is put on the chat queue; other frames are dropped
(`ping` is answered with a `pong`). -/
def readStep {V : Type} (st : CorrState V) : Frame V → StepRes V
  | .ping => .ok st [.pong]
  | .connected => .ok st [.connectedSet]
  | .result id v =>
    let st1 : CorrState V := { st with completion := ainsert id (some v) st.completion }
    match alookup id st.completion_event with
    | some _ => .ok { st1 with completion_event := ainsert id true st1.completion_event } []
    | none => .died st1
  | .nosub id =>
    let st1 : CorrState V := { st with completion := ainsert id none st.completion }
    match alookup id st.completion_event with
    | some _ => .ok { st1 with completion_event := ainsert id true st1.completion_event } []
    | none => .died st1
  | .changed c e v =>
    match c, e with
    | some cs, some es =>
      if cs = "stream-room-messages" ∧ es = "__my_messages__" then .ok st [.chatEnq v]
      else .ok st [.nopeLog]
    | _, _ => .ok st []
  | .other _ => .ok st []
  | .noMsg => .ok st []

/-- Result of running the read loop on a list of frames: `died` carries the
state at the raise, the outputs produced before it, and the frames that
were never processed because the loop terminated. -/
inductive LoopRes (V : Type)
  | ok (st : CorrState V) (outs : List (ReadOut V))
  | died (st : CorrState V) (outs : List (ReadOut V)) (remaining : List (Frame V))

/-- The `while True` of `_read_loop`, driven by a finite prefix of the
inbound frame stream. -/
def readLoop {V : Type} (st : CorrState V) : List (Frame V) → LoopRes V
  | [] => .ok st []
  | f :: fs =>
    match readStep st f with
    | .died st1 => .died st1 [] fs
    | .ok st1 outs =>
      match readLoop st1 fs with
      | .ok st2 outs2 => .ok st2 (outs ++ outs2)
      | .died st2 outs2 rem => .died st2 (outs ++ outs2) rem

/-- Correlator registration performed by `_send_msg` (lines 490 to 492):
a fresh id is mapped to a new, unset `asyncio.Event`.  The payload put on
the write queue does not touch correlator state and is omitted here. -/
def send_msg {V : Type} (st : CorrState V) (id : String) : CorrState V :=
  { st with completion_event := ainsert id false st.completion_event }

/-- The consumer side `_get_msg` (lines 459 to 465): wait for the event,
delete the event, deep-copy the stored result, delete it, return it.
`none` models the call blocking forever (event absent or unset) or the
`KeyError` paths, which the claims never reach. -/
def get_msg {V : Type} (st : CorrState V) (id : String) : Option (Option V × CorrState V) :=
  match alookup id st.completion_event with
  | some true =>
    let st1 : CorrState V := { st with completion_event := aerase id st.completion_event }
    match alookup id st1.completion with
    | some r => some (r, { st1 with completion := aerase id st1.completion })
    | none => none
  | _ => none

/-- Fields of a chat message used by `_chat_task` (`rocketchat_data.py`
`Message`): author username, `editedAt` epoch (or `none` when the key is
absent), the reaction keys (empty list when absent), the text and the room
id. -/
structure Msg where
  username : String
  edited_at : Option Int
  reactions : List String
  text : String
  room_id : String
deriving DecidableEq, Repr

/-- Argument type of an `arg` descriptor (`args.py`): `type=int` or the
default (string, `type=None`). -/
inductive ArgTy
  | int
  | str
deriving DecidableEq, Repr

/-- Value produced by argparse type conversion. -/
inductive ArgVal
  | i (n : Int)
  | s (v : String)
deriving DecidableEq, Repr

/-- One `arg(name, type, help)` descriptor of `args.py`. -/
structure ArgSpec where
  name : String
  ty : ArgTy
deriving DecidableEq, Repr

/-- Namespace returned by a successful `parse_args`, as name/value pairs. -/
abbrev ParsedArgs := List (String × ArgVal)

/-- A registered `_Command` (lines 25 to 39): handler coroutine, help
text, argument descriptors and optional room allow-list.  The handler is a
total function; `.error` models a raised exception (caught and logged at
line 432), `.ok r` a normal return with `r` the value (`none` = Python
`None`, no reply). -/
structure Command where
  coro : Msg → ParsedArgs → Except Unit (Option String)
  help : Option String
  args : List ArgSpec
  rooms : Option (List String)

/-- A registered `_Match` (lines 42 to 55): handler, compiled pattern
(modelled as the Boolean predicate `re.Pattern.match` denotes on the
message text), rate limit, and the mutable `last_called` monotonic-clock
stamp. -/
structure MatchSpec where
  coro : Msg → Except Unit (Option String)
  pat : String → Bool
  rate_limit : Option Int
  last_called : Option Int

/-- Application state relevant to dispatch: own username, command prefix
(`self.prefix`, field named `pre` here), the `_commands` dict in insertion
order and the `_match` list. -/
structure Bot where
  username : String
  pre : String
  commands : List (String × Command)
  matchers : List MatchSpec

/-- A per-dispatch parser built by `get_argument_parser` (lines 191 to
209): program name and the commands visible in the room.  The class-level
`msg_q` of `args.py` is deliberately NOT a field: it is one process-wide
queue shared by every instance, embedded as an explicit `List String`
value threaded through the functions below (instance methods take the
shared queue and ignore `self`). -/
structure ArgumentParser where
  prog : String
  visible : List (String × Command)

/-- The `get_argument_parser` method: a fresh parser whose subcommands are
the commands whose room allow-list admits the room. -/
def getArgumentParser (bot : Bot) (room_id : String) : ArgumentParser :=
  ⟨bot.pre, bot.commands.filter (fun p =>
    match p.2.rooms with
    | none => true
    | some rs => rs.contains room_id)⟩

/-- Overridden `ArgumentParser.error` of `args.py` (lines 29 to 30): raise
`Exception(message)` instead of printing usage and exiting.  `.error`
carries exactly the message text. -/
def ArgumentParser.error {α : Type} (_p : ArgumentParser) (message : String) :
    Except String α :=
  .error message

/-- Overridden `ArgumentParser.exit` of `args.py` (lines 26 to 27): a
no-op.  The result is the process exit it performs: always `none`, never a
termination (`some code` would model `sys.exit(code)`). -/
def ArgumentParser.exit (_p : ArgumentParser) (_status : Nat) (_message : Option String) :
    Option Nat :=
  none

/-- Overridden `ArgumentParser._print_message` of `args.py` (lines 22 to
24): non-empty text is appended to the shared class-level queue. -/
def ArgumentParser.printMessage (_p : ArgumentParser) (q : List String) (message : String) :
    List String :=
  if message = "" then q else q ++ [message]

/-- Draining `parser.msg_q` with repeated `get_nowait` until `queue.Empty`,
as `send_enqueued_messages` does (lines 396 to 407): yields every queued
message in order and leaves the queue empty.  The parser instance is
irrelevant because the queue is class-level. -/
def ArgumentParser.drainQ (_p : ArgumentParser) (q : List String) :
    List String × List String :=
  (q, [])

/-- CPython argparse error text for a token that names no subcommand (the
subparsers action has no dest and no metavar, so the `ArgumentError` text
is the bare `invalid choice` message). -/
def invalidChoiceMsg (tok : String) (names : List String) : String :=
  "invalid choice: \x27" ++ tok ++ "\x27 (choose from " ++
    String.intercalate ", " (names.map (fun n => "\x27" ++ n ++ "\x27")) ++ ")"

/-- CPython argparse error text for a positional that fails `int`
conversion. -/
def invalidIntMsg (name tok : String) : String :=
  "argument " ++ name ++ ": invalid int value: \x27" ++ tok ++ "\x27"

/-- CPython argparse error text for missing required positionals. -/
def requiredMsg (names : List String) : String :=
  "the following arguments are required: " ++ String.intercalate ", " names

/-- CPython argparse error text for extra positional tokens. -/
def unrecognizedMsg (toks : List String) : String :=
  "unrecognized arguments: " ++ String.intercalate " " toks

/-- Python `str.startswith`, on the character lists underlying the
strings (the byte-position based library versions do not evaluate under
the kernel). -/
def startsWithStr (s p : String) : Bool :=
  p.data.isPrefixOf s.data

/-- Python slicing `s[n:]` by characters. -/
def dropStr (s : String) (n : Nat) : String :=
  ⟨s.data.drop n⟩

/-- Accumulator of `splitWS`: the current (reversed) token. -/
def splitWSAux (cur : List Char) : List Char → List (List Char)
  | [] => if cur.isEmpty then [] else [cur.reverse]
  | c :: cs =>
    if c = ' ' then
      if cur.isEmpty then splitWSAux [] cs
      else cur.reverse :: splitWSAux [] cs
    else splitWSAux (c :: cur) cs

/-- The `shlex.split` tokenization of the command line, restricted to
splitting on spaces (no claim involves quoting or escapes). -/
def tokenize (s : String) : List String :=
  (splitWSAux [] s.data).map (fun cs => ⟨cs⟩)

/-- Digit-string accumulation used by the `int` conversion. -/
def digitsToNat? (ds : List Char) (acc : Nat) : Option Nat :=
  match ds with
  | [] => some acc
  | c :: cs =>
    if 48 ≤ c.toNat ∧ c.toNat ≤ 57 then digitsToNat? cs (acc * 10 + (c.toNat - 48))
    else none

/-- Python `int(token)` conversion as argparse applies it, restricted to
an optional leading minus and decimal digits (a token such as
`notanumber` fails, a decimal literal succeeds; no claim involves other
accepted forms). -/
def toIntStr (s : String) : Option Int :=
  match s.data with
  | [] => none
  | c :: ds =>
    if c = Char.ofNat 45 then
      if ds.isEmpty then none else (digitsToNat? ds 0).map (fun n => -(n : Int))
    else (digitsToNat? (c :: ds) 0).map (fun n => (n : Int))

/-- Type conversion of one positional token per its `arg` descriptor; a
failed `int` conversion raises through the overridden `error` hook. -/
def convertArg (p : ArgumentParser) (sp : ArgSpec) (tok : String) : Except String ArgVal :=
  match sp.ty with
  | .str => .ok (.s tok)
  | .int =>
    match toIntStr tok with
    | some n => .ok (.i n)
    | none => p.error (invalidIntMsg sp.name tok)

/-- Parsing the positional arguments of the chosen subcommand against its
descriptors (conversion failures and arity mismatches raise through the
`error` hook; argparse reports missing arguments together, here the first
failure is reported, which no claim distinguishes). -/
def parsePositionals (p : ArgumentParser) : List ArgSpec → List String → Except String ParsedArgs
  | [], [] => .ok []
  | [], tok :: toks => p.error (unrecognizedMsg (tok :: toks))
  | sp :: sps, [] => p.error (requiredMsg ((sp :: sps).map (fun a => a.name)))
  | sp :: sps, tok :: toks =>
    match convertArg p sp tok with
    | .error e => .error e
    | .ok v =>
      match parsePositionals p sps toks with
      | .error e => .error e
      | .ok rest => .ok ((sp.name, v) :: rest)

/-- The `parse_args` call of the per-dispatch parser on the shell-split
tokens: the first token selects the subcommand (unknown tokens raise the
invalid-choice error through the `error` hook), the rest are its
positionals.  Dash-prefixed options such as `-h` are not modelled; no
claim involves them. -/
def ArgumentParser.parse_args (p : ArgumentParser) (args : List String) :
    Except String ParsedArgs :=
  match args with
  | [] => .ok []
  | c :: rest =>
    match alookup c p.visible with
    | none => p.error (invalidChoiceMsg c (p.visible.map Prod.fst))
    | some cs => parsePositionals p cs.args rest

/-- The help text captured from `parser.print_help()`; its exact content
matters to no claim, only that it is one non-empty captured message. -/
def helpText (p : ArgumentParser) : String :=
  "usage: " ++ p.prog ++ " [-h] \x7b" ++
    String.intercalate "," (p.visible.map Prod.fst) ++ "\x7d ..."

/-- Skip decision of the rate limiter (lines 372 to 382): with a rate
limit and a previous call stamp, skip iff `rate_limit - (now - last) > 0`;
a never-called matcher has infinite elapsed time and is never skipped; a
matcher without a rate limit is never skipped. -/
def matchStepSkip (rl : Option Int) (last : Option Int) (now : Int) : Bool :=
  match rl, last with
  | some c, some t => c - (now - t) > 0
  | _, _ => false

/-- Handler invocations performed by one execution unit, in order. -/
inductive TaskCall
  | matchH (i : Nat)
  | cmdH (name : String)
deriving DecidableEq, Repr

/-- Outcome of the pattern-matching loop of `_chat_task` (lines 370 to
391): updated matcher list, reply texts sent (in order), indices of the
handlers invoked, and whether the loop `return`ed out of the whole task
because a matched pattern was rate limited. -/
structure MatchOut where
  specs : List MatchSpec
  replies : List String
  calls : List Nat
  aborted : Bool

/-- The `for match in self._match` loop, with `i` the index of the first
element of `specs` in the original list.  A rate-limited match executes
`return` (line 382): the remaining matchers are left untouched and the
abort flag is set.  Otherwise a matching handler gets `last_called = now`
(line 384) and is invoked; an exception is logged (line 388) and a
non-`None` return value is sent as a reply (lines 390 to 391). -/
def matchLoopAux (now : Int) (msg : Msg) (i : Nat) : List MatchSpec → MatchOut
  | [] => ⟨[], [], [], false⟩
  | m :: rest =>
    if m.pat msg.text then
      if matchStepSkip m.rate_limit m.last_called now then
        ⟨m :: rest, [], [], true⟩
      else
        let rep : List String :=
          match m.coro msg with
          | .error _ => []
          | .ok none => []
          | .ok (some r) => [r]
        let tail := matchLoopAux now msg (i + 1) rest
        ⟨{ m with last_called := some now } :: tail.specs, rep ++ tail.replies,
          i :: tail.calls, tail.aborted⟩
    else
      let tail := matchLoopAux now msg (i + 1) rest
      ⟨m :: tail.specs, tail.replies, tail.calls, tail.aborted⟩

/-- Pattern loop of `_chat_task` over the full matcher list. -/
def matchLoop (now : Int) (msg : Msg) (specs : List MatchSpec) : MatchOut :=
  matchLoopAux now msg 0 specs

/-- Outcome of the command-dispatch phase of `_chat_task` (lines 393 to
436): shared queue afterwards, replies sent (in order), the invoked
command (if any), and whether an exception escaped to the outer handler at
line 437 (logged `failed to handle message`). -/
structure CmdPhaseOut where
  q : List String
  sent : List (String × String)
  invoked : Option String
  caught : Bool

/-- Command dispatch of `_chat_task` (lines 393 to 436), for a message
that survived the filters and whose pattern loop did not abort: if the
text starts with the prefix, shell-split the remainder; `help` prints the
captured help text; otherwise parse, on failure drain the queue and send
either the captured messages (fenced) or the exception text (lines 417 to
425); on success drain the queue, look up the command and invoke it,
catching handler exceptions and sending a non-`None` result (lines 427 to
436). -/
def commandPhase (bot1 : Bot) (q : List String) (msg : Msg) : CmdPhaseOut :=
  if startsWithStr msg.text bot1.pre then
    match tokenize (dropStr msg.text bot1.pre.length) with
    | [] => ⟨q, [], none, true⟩
    | command :: rest =>
      let parser := getArgumentParser bot1 msg.room_id
      if command = "help" then
        let q1 := parser.printMessage q (helpText parser)
        let dr := parser.drainQ q1
        ⟨dr.2, dr.1.map (fun m => (msg.room_id, "```\n" ++ m ++ "```")), none, false⟩
      else
        match parser.parse_args (command :: rest) with
        | .error e =>
          let dr := parser.drainQ q
          ⟨dr.2,
            if dr.1.isEmpty then [(msg.room_id, e)]
            else dr.1.map (fun m => (msg.room_id, "```\n" ++ m ++ "```")),
            none, false⟩
        | .ok parsed =>
          let dr := parser.drainQ q
          let pre_sent := dr.1.map (fun m => (msg.room_id, "```\n" ++ m ++ "```"))
          match alookup command bot1.commands with
          | none => ⟨dr.2, pre_sent, none, true⟩
          | some c =>
            match c.coro msg parsed with
            | .error _ => ⟨dr.2, pre_sent, some command, false⟩
            | .ok none => ⟨dr.2, pre_sent, some command, false⟩
            | .ok (some r) => ⟨dr.2, pre_sent ++ [(msg.room_id, r)], some command, false⟩
  else ⟨q, [], none, false⟩

/-- Result of one `_chat_task` execution unit: bot state afterwards (the
matcher stamps are its only mutable part), the shared parser queue, the
replies sent in order, the handler invocations in order, and whether the
outer exception handler at line 437 fired. -/
structure TaskResult where
  bot : Bot
  q : List String
  replies : List (String × String)
  calls : List TaskCall
  caught : Bool

/-- One `_chat_task` execution (lines 359 to 438): drop messages authored
by the bot, edited, or carrying reactions (lines 362 to 368); run the
pattern loop; if it aborted via a rate limit, the task returns there;
otherwise run command dispatch and assemble the observable outcome. -/
def chatTask (bot : Bot) (q : List String) (now : Int) (msg : Msg) : TaskResult :=
  if msg.username = bot.username ∨ msg.edited_at.isSome = true ∨ msg.reactions ≠ [] then
    ⟨bot, q, [], [], false⟩
  else
    let mo := matchLoop now msg bot.matchers
    let bot1 : Bot := { bot with matchers := mo.specs }
    let mreplies := mo.replies.map (fun r => (msg.room_id, r))
    let mcalls := mo.calls.map TaskCall.matchH
    if mo.aborted then ⟨bot1, q, mreplies, mcalls, false⟩
    else
      let cp := commandPhase bot1 q msg
      ⟨bot1, cp.q, mreplies ++ cp.sent,
        mcalls ++ (match cp.invoked with
          | none => []
          | some n => [TaskCall.cmdH n]),
        cp.caught⟩

/-- A sequence of dispatched chat events, each with the monotonic-clock
reading of its execution unit: threads the matcher stamps and the shared
queue, collecting each unit outcome. -/
def runTrace (bot : Bot) (q : List String) : List (Int × Msg) → Bot × List (Int × TaskResult)
  | [] => (bot, [])
  | tm :: rest =>
    let r := chatTask bot q tm.1 tm.2
    ((runTrace r.bot r.q rest).1, (tm.1, r) :: (runTrace r.bot r.q rest).2)

/-- Times at which matcher `i` was invoked along a trace. -/
def triggerTimes (i : Nat) (evs : List (Int × TaskResult)) : List Int :=
  (evs.filter (fun p => decide (TaskCall.matchH i ∈ p.2.calls))).map Prod.fst

/-- Signature check of `validate_args` (lines 211 to 226): a decorated
coroutine with zero parameters raises `ValueError` (handler arity is not
visible on a Lean function, so the embedding takes the parameter count of
the Python callable and its `__name__` explicitly). -/
def validate_args (fname : String) (nparams : Nat) : Except String Unit :=
  if nparams = 0 then
    .error ("Required argument `message` missing in the " ++ fname ++ "() cmd?")
  else .ok ()

/-- Registration performed by the `cmd` decorator (lines 241 to 277):
validate the handler signature, reject a duplicate command name with
`ValueError`, otherwise add the command to the `_commands` dict (a fresh
key appends in insertion order). -/
def cmd (reg : List (String × Command)) (command : String) (fname : String)
    (nparams : Nat) (c : Command) : Except String (List (String × Command)) :=
  match validate_args fname nparams with
  | .error e => .error e
  | .ok _ =>
    if (alookup command reg).isSome then
      .error ("Multiple handlers defined for " ++ command)
    else .ok (reg ++ [(command, c)])

/-- Indices of the registered matchers whose pattern matches the text,
starting at index `i`; the reference behavior the pattern loop implements
when no rate limit fires. -/
def matchingIdxAux (text : String) (i : Nat) : List MatchSpec → List Nat
  | [] => []
  | m :: rest =>
    if m.pat text then i :: matchingIdxAux text (i + 1) rest
    else matchingIdxAux text (i + 1) rest

/-- Concrete ping command used by witnesses: replies `pong`, no args. -/
def pingCommand : Command :=
  ⟨fun _ _ => .ok (some "pong"), some "pong", [], none⟩

/-- Concrete timer-like command used by witnesses: one `int` positional. -/
def timerCommand : Command :=
  ⟨fun _ _ => .ok (some "timer set"), some "set an egg timer", [⟨"duration", .int⟩], none⟩

/-- Concrete registry used by witnesses: `ping` and `timer`. -/
def regPT : List (String × Command) := [("ping", pingCommand), ("timer", timerCommand)]

/-- Bot fixture without matchers. -/
def botPlain : Bot := ⟨"bot", "!", regPT, []⟩

/-- Matcher fixture that always matches with a 100-unit cooldown last
triggered at time 0. -/
def mCool : MatchSpec := ⟨fun _ => .ok (some "interject"), fun _ => true, some 100, some 0⟩

/-- Matcher fixture that always matches, without a rate limit. -/
def mFree : MatchSpec := ⟨fun _ => .ok (some "second"), fun _ => true, none, none⟩

/-- Matcher fixture for the cooldown trace: 100-unit cooldown, never yet
triggered. -/
def mCool0 : MatchSpec := ⟨fun _ => .ok none, fun _ => true, some 100, none⟩

/-- Bot fixture with a rate-limited matcher ahead of a free one. -/
def botCool : Bot := ⟨"bot", "!", regPT, [mCool, mFree]⟩

/-- Bot fixture with one never-triggered rate-limited matcher. -/
def botTrace : Bot := ⟨"bot", "!", regPT, [mCool0]⟩

/-- Message fixture from a plain user in room `R`. -/
def msgOf (t : String) : Msg := ⟨"alice", none, [], t, "R"⟩

theorem alookup_ainsert_self {β : Type} (k : String) (v : β) (l : List (String × β)) :
    alookup k (ainsert k v l) = some v := by
  induction l with
  | nil => simp [ainsert, alookup]
  | cons p rest ih =>
    by_cases h : p.1 = k
    · simp [ainsert, h, alookup]
    · simp [ainsert, h, alookup, ih]

theorem alookup_ainsert_ne {β : Type} (k k2 : String) (v : β) (l : List (String × β))
    (h : k2 ≠ k) : alookup k (ainsert k2 v l) = alookup k l := by
  induction l with
  | nil => simp [ainsert, alookup, h]
  | cons p rest ih =>
    obtain ⟨pk, pv⟩ := p
    by_cases h2 : pk = k2
    · subst h2
      simp [ainsert, alookup, h]
    · simp only [ainsert, h2, if_false, alookup]
      by_cases h3 : pk = k
      · simp [h3]
      · simp [h3, ih]

theorem alookup_aerase_self {β : Type} (k : String) (l : List (String × β)) :
    alookup k (aerase k l) = none := by
  induction l with
  | nil => simp [aerase, alookup]
  | cons p rest ih =>
    by_cases h : p.1 = k
    · simp [aerase, h, ih]
    · simp [aerase, h, alookup, ih]

theorem alookup_eq_none_iff {β : Type} (k : String) (l : List (String × β)) :
    alookup k l = none ↔ k ∉ l.map Prod.fst := by
  induction l with
  | nil => simp [alookup]
  | cons p rest ih =>
    by_cases h : p.1 = k
    · simp [alookup, h]
    · simp [alookup, h, ih, Ne.symm h]

theorem readStep_ok_preserves {V : Type} (st st1 : CorrState V) (f : Frame V)
    (outs : List (ReadOut V)) (id : String)
    (hid : frameId f ≠ some id) (h : readStep st f = .ok st1 outs) :
    alookup id st1.completion_event = alookup id st.completion_event ∧
      alookup id st1.completion = alookup id st.completion := by
  cases f with
  | ping => simp only [readStep] at h; cases h; exact ⟨rfl, rfl⟩
  | connected => simp only [readStep] at h; cases h; exact ⟨rfl, rfl⟩
  | result id2 v =>
    have hne : id2 ≠ id := by
      intro hcon; exact hid (by simp [frameId, hcon])
    simp only [readStep] at h
    cases hl : alookup id2 st.completion_event with
    | none => rw [hl] at h; cases h
    | some b =>
      rw [hl] at h
      cases h
      constructor
      · exact alookup_ainsert_ne id id2 true _ hne
      · exact alookup_ainsert_ne id id2 (some v) _ hne
  | nosub id2 =>
    have hne : id2 ≠ id := by
      intro hcon; exact hid (by simp [frameId, hcon])
    simp only [readStep] at h
    cases hl : alookup id2 st.completion_event with
    | none => rw [hl] at h; cases h
    | some b =>
      rw [hl] at h
      cases h
      constructor
      · exact alookup_ainsert_ne id id2 true _ hne
      · exact alookup_ainsert_ne id id2 none _ hne
  | changed c e v =>
    cases c with
    | none => simp only [readStep] at h; cases h; exact ⟨rfl, rfl⟩
    | some cs =>
      cases e with
      | none => simp only [readStep] at h; cases h; exact ⟨rfl, rfl⟩
      | some es =>
        simp only [readStep] at h
        by_cases hc : cs = "stream-room-messages" ∧ es = "__my_messages__"
        · rw [if_pos hc] at h; cases h; exact ⟨rfl, rfl⟩
        · rw [if_neg hc] at h; cases h; exact ⟨rfl, rfl⟩
  | other tag => simp only [readStep] at h; cases h; exact ⟨rfl, rfl⟩
  | noMsg => simp only [readStep] at h; cases h; exact ⟨rfl, rfl⟩

theorem readLoop_ok_preserves {V : Type} (id : String) :
    ∀ (fs : List (Frame V)) (st st2 : CorrState V) (outs : List (ReadOut V)),
    (∀ f ∈ fs, frameId f ≠ some id) → readLoop st fs = .ok st2 outs →
    alookup id st2.completion_event = alookup id st.completion_event ∧
      alookup id st2.completion = alookup id st.completion := by
  intro fs
  induction fs with
  | nil =>
    intro st st2 outs _ h
    simp only [readLoop] at h
    cases h
    exact ⟨rfl, rfl⟩
  | cons f fs ih =>
    intro st st2 outs hall h
    simp only [readLoop] at h
    split at h
    · cases h
    · rename_i st1 outs1 hs
      split at h
      · rename_i st3 outs3 hl
        have h1 := readStep_ok_preserves st st1 f outs1 id (hall f (by simp)) hs
        have h2 := ih st1 st3 outs3 (fun g hg => hall g (by simp [hg])) hl
        cases h
        exact ⟨h2.1.trans h1.1, h2.2.trans h1.2⟩
      · cases h

/-- C1: round-trip through the correlated request path (`_msg` = `_send_msg`
then `_get_msg`).  After registering a fresh id and letting the read loop
process any frames that do not bear this id, classifying the matching
`result` frame and then running `_get_msg` returns exactly the payload of
that frame (and `none`, i.e. Python `None`, for a matching `nosub` frame),
and afterwards neither the completion event nor the stored result for the
id remains in the correlation maps. -/
theorem sendRequest_roundtrip {V : Type} (st : CorrState V) (id : String) (v : V)
    (fs : List (Frame V)) (st2 : CorrState V) (outs : List (ReadOut V))
    (hfresh : alookup id st.completion_event = none)
    (hfs : ∀ f ∈ fs, frameId f ≠ some id)
    (hrun : readLoop (send_msg st id) fs = .ok st2 outs) :
    (∃ st3 st4, readStep st2 (.result id v) = .ok st3 [] ∧
      get_msg st3 id = some (some v, st4) ∧
      alookup id st4.completion_event = none ∧ alookup id st4.completion = none) ∧
    (∃ st3 st4, readStep st2 (.nosub id) = .ok st3 [] ∧
      get_msg st3 id = some (none, st4) ∧
      alookup id st4.completion_event = none ∧ alookup id st4.completion = none) := by
  have hev : alookup id st2.completion_event = some false := by
    have hp := readLoop_ok_preserves id fs (send_msg st id) st2 outs hfs hrun
    rw [hp.1]
    simp [send_msg, alookup_ainsert_self]
  constructor
  · refine ⟨⟨ainsert id true st2.completion_event, ainsert id (some v) st2.completion⟩,
      ⟨aerase id (ainsert id true st2.completion_event),
        aerase id (ainsert id (some v) st2.completion)⟩, ?_, ?_, ?_, ?_⟩
    · simp [readStep, hev]
    · simp [get_msg, alookup_ainsert_self]
    · exact alookup_aerase_self id _
    · exact alookup_aerase_self id _
  · refine ⟨⟨ainsert id true st2.completion_event, ainsert id none st2.completion⟩,
      ⟨aerase id (ainsert id true st2.completion_event),
        aerase id (ainsert id none st2.completion)⟩, ?_, ?_, ?_, ?_⟩
    · simp [readStep, hev]
    · simp [get_msg, alookup_ainsert_self]
    · exact alookup_aerase_self id _
    · exact alookup_aerase_self id _

/-- Witness for C1 at a concrete state: id `a` freshly registered, one
unrelated `ping` frame processed in between. -/
theorem sendRequest_roundtrip_witness :
    (∃ st3 st4, readStep (⟨[("a", false)], []⟩ : CorrState Nat) (.result "a" 7) = .ok st3 [] ∧
      get_msg st3 "a" = some (some 7, st4) ∧
      alookup "a" st4.completion_event = none ∧ alookup "a" st4.completion = none) ∧
    (∃ st3 st4, readStep (⟨[("a", false)], []⟩ : CorrState Nat) (.nosub "a") = .ok st3 [] ∧
      get_msg st3 "a" = some (none, st4) ∧
      alookup "a" st4.completion_event = none ∧ alookup "a" st4.completion = none) :=
  sendRequest_roundtrip ⟨[], []⟩ "a" 7 [Frame.ping] ⟨[("a", false)], []⟩ [ReadOut.pong]
    rfl (by decide) rfl

/-- C2 (amended): a `result` or `nosub` frame whose id is not a pending
request id first writes the payload into the stored-result map
(`_completion[id] = ...`, line 317/321) and then raises `KeyError` on the
completion-event lookup (line 318/322); the `except` at lines 337 to 339
logs `read loop died` and re-raises, so the read loop terminates and
subsequent frames are never processed. -/
theorem unknown_id_terminates_read_loop {V : Type} (st : CorrState V) (id : String) (v : V)
    (rest : List (Frame V)) (h : alookup id st.completion_event = none) :
    readStep st (.result id v) = .died { st with completion := ainsert id (some v) st.completion } ∧
    readStep st (.nosub id) = .died { st with completion := ainsert id none st.completion } ∧
    readLoop st (.result id v :: rest) =
      .died { st with completion := ainsert id (some v) st.completion } [] rest := by
  refine ⟨?_, ?_, ?_⟩
  · simp [readStep, h]
  · simp [readStep, h]
  · simp [readLoop, readStep, h]

/-- Witness for the amended C2 at a concrete state. -/
theorem unknown_id_terminates_read_loop_witness :
    readStep (⟨[], []⟩ : CorrState Nat) (.result "x" 3) = .died ⟨[], [("x", some 3)]⟩ ∧
    readStep (⟨[], []⟩ : CorrState Nat) (.nosub "x") = .died ⟨[], [("x", none)]⟩ ∧
    readLoop (⟨[], []⟩ : CorrState Nat) [Frame.result "x" 3, Frame.ping] =
      .died ⟨[], [("x", some 3)]⟩ [] [Frame.ping] :=
  unknown_id_terminates_read_loop ⟨[], []⟩ "x" 3 [Frame.ping] rfl

/-- Counterexample to C2 as stated: with no pending request, the frame
sequence `result(id=x)` then `ping` makes the read loop die at the first
frame — the `ping` is never processed (no `pong` in the outputs, which are
empty), the exception is re-raised out of the loop body, and the
correlation map did change: the orphan payload sits in `completion`. -/
theorem unknown_id_counterexample :
    readLoop (⟨[], []⟩ : CorrState Nat) [Frame.result "x" 3, Frame.ping] =
      .died ⟨[], [("x", some 3)]⟩ [] [Frame.ping] ∧
    alookup "x" ((⟨[], [("x", some 3)]⟩ : CorrState Nat)).completion = some (some 3) := by
  exact ⟨rfl, rfl⟩

theorem commandPhase_matchers (bot : Bot) (ms : List MatchSpec) (q : List String) (msg : Msg) :
    commandPhase { bot with matchers := ms } q msg = commandPhase bot q msg := rfl

theorem matchLoopAux_no_abort_calls (now : Int) (msg : Msg) :
    ∀ (specs : List MatchSpec) (i : Nat),
    (matchLoopAux now msg i specs).aborted = false →
    (matchLoopAux now msg i specs).calls = matchingIdxAux msg.text i specs := by
  intro specs
  induction specs with
  | nil => intro i _; rfl
  | cons m rest ih =>
    intro i hab
    by_cases hp : m.pat msg.text = true
    · by_cases hs : matchStepSkip m.rate_limit m.last_called now = true
      · simp [matchLoopAux, hp, hs] at hab
      · have hab2 : (matchLoopAux now msg (i + 1) rest).aborted = false := by
          simpa [matchLoopAux, hp, hs] using hab
        simp [matchLoopAux, matchingIdxAux, hp, hs, ih (i + 1) hab2]
    · have hab2 : (matchLoopAux now msg (i + 1) rest).aborted = false := by
        simpa [matchLoopAux, hp] using hab
      simp [matchLoopAux, matchingIdxAux, hp, ih (i + 1) hab2]

theorem matchLoopAux_nomatch (now : Int) (msg : Msg) :
    ∀ (specs : List MatchSpec) (i : Nat),
    (∀ m ∈ specs, m.pat msg.text = false) →
    matchLoopAux now msg i specs = ⟨specs, [], [], false⟩ := by
  intro specs
  induction specs with
  | nil => intro i _; rfl
  | cons m rest ih =>
    intro i hnm
    have hm : m.pat msg.text = false := hnm m (by simp)
    have htail := ih (i + 1) (fun m2 hm2 => hnm m2 (by simp [hm2]))
    simp [matchLoopAux, hm, htail]

theorem chatTask_normal (bot : Bot) (q : List String) (now : Int) (msg : Msg)
    (hfilt : ¬(msg.username = bot.username ∨ msg.edited_at.isSome = true ∨ msg.reactions ≠ []))
    (habort : (matchLoop now msg bot.matchers).aborted = false) :
    chatTask bot q now msg =
      ⟨{ bot with matchers := (matchLoop now msg bot.matchers).specs },
        (commandPhase bot q msg).q,
        (matchLoop now msg bot.matchers).replies.map (fun r => (msg.room_id, r)) ++
          (commandPhase bot q msg).sent,
        (matchLoop now msg bot.matchers).calls.map TaskCall.matchH ++
          (match (commandPhase bot q msg).invoked with
            | none => []
            | some n => [TaskCall.cmdH n]),
        (commandPhase bot q msg).caught⟩ := by
  unfold chatTask
  rw [if_neg hfilt]
  simp only [habort, if_false, Bool.false_eq_true, commandPhase_matchers]

theorem chatTask_nomatch (bot : Bot) (q : List String) (now : Int) (msg : Msg)
    (hfilt : ¬(msg.username = bot.username ∨ msg.edited_at.isSome = true ∨ msg.reactions ≠ []))
    (hnm : ∀ m ∈ bot.matchers, m.pat msg.text = false) :
    chatTask bot q now msg =
      ⟨bot, (commandPhase bot q msg).q, (commandPhase bot q msg).sent,
        (match (commandPhase bot q msg).invoked with
          | none => []
          | some n => [TaskCall.cmdH n]),
        (commandPhase bot q msg).caught⟩ := by
  have hml : matchLoop now msg bot.matchers = ⟨bot.matchers, [], [], false⟩ :=
    matchLoopAux_nomatch now msg bot.matchers 0 hnm
  have h := chatTask_normal bot q now msg hfilt (by rw [hml])
  rw [h, hml]
  rfl

theorem commandPhase_invokes (bot1 : Bot) (q : List String) (msg : Msg)
    (command : String) (rest : List String) (parsed : ParsedArgs) (c : Command)
    (hpre : startsWithStr msg.text bot1.pre = true)
    (htok : tokenize (dropStr msg.text bot1.pre.length) = command :: rest)
    (hhelp : ¬command = "help")
    (hparse : (getArgumentParser bot1 msg.room_id).parse_args (command :: rest) = .ok parsed)
    (hcmd : alookup command bot1.commands = some c) :
    (commandPhase bot1 q msg).invoked = some command ∧
      (commandPhase bot1 q msg).caught = false := by
  unfold commandPhase
  simp only [hpre, if_true, htok, hhelp, ite_false, hparse, hcmd, ArgumentParser.drainQ]
  cases hco : c.coro msg parsed with
  | error e => simp [hco]
  | ok r =>
    cases r with
    | none => simp [hco]
    | some s => simp [hco]

theorem commandPhase_parse_error (bot1 : Bot) (q : List String) (msg : Msg)
    (command : String) (rest : List String) (e : String)
    (hpre : startsWithStr msg.text bot1.pre = true)
    (htok : tokenize (dropStr msg.text bot1.pre.length) = command :: rest)
    (hhelp : ¬command = "help")
    (hparse : (getArgumentParser bot1 msg.room_id).parse_args (command :: rest) = .error e) :
    commandPhase bot1 q msg =
      ⟨[],
        if q.isEmpty then [(msg.room_id, e)]
        else q.map (fun m => (msg.room_id, "```\n" ++ m ++ "```")),
        none, false⟩ := by
  unfold commandPhase
  simp only [hpre, if_true, htok, hhelp, ite_false, hparse, ArgumentParser.drainQ]

/-- C4 (amended): when a matched MatchSpec is still in cooldown, the
dispatcher logs and executes `return` from the whole execution unit (line
382): the task ends with exactly the replies and invocations accumulated
before that match, the remaining MatchSpecs are not evaluated, and command
dispatch for the message does not take place. -/
theorem rate_limited_abort (bot : Bot) (q : List String) (now : Int) (msg : Msg)
    (hfilt : ¬(msg.username = bot.username ∨ msg.edited_at.isSome = true ∨ msg.reactions ≠ []))
    (habort : (matchLoop now msg bot.matchers).aborted = true) :
    chatTask bot q now msg =
      ⟨{ bot with matchers := (matchLoop now msg bot.matchers).specs }, q,
        (matchLoop now msg bot.matchers).replies.map (fun r => (msg.room_id, r)),
        (matchLoop now msg bot.matchers).calls.map TaskCall.matchH, false⟩ ∧
    (∀ s, TaskCall.cmdH s ∉ (chatTask bot q now msg).calls) := by
  have h1 : chatTask bot q now msg =
      ⟨{ bot with matchers := (matchLoop now msg bot.matchers).specs }, q,
        (matchLoop now msg bot.matchers).replies.map (fun r => (msg.room_id, r)),
        (matchLoop now msg bot.matchers).calls.map TaskCall.matchH, false⟩ := by
    unfold chatTask
    rw [if_neg hfilt]
    simp only [habort, if_true]
  refine ⟨h1, ?_⟩
  intro s
  rw [h1]
  simp

/-- Witness for the amended C4: first matcher in cooldown at time 1. -/
theorem rate_limited_abort_witness :
    chatTask botCool [] 1 (msgOf "!ping") =
      ⟨{ botCool with matchers := (matchLoop 1 (msgOf "!ping") botCool.matchers).specs }, [],
        (matchLoop 1 (msgOf "!ping") botCool.matchers).replies.map
          (fun r => ((msgOf "!ping").room_id, r)),
        (matchLoop 1 (msgOf "!ping") botCool.matchers).calls.map TaskCall.matchH, false⟩ ∧
    (∀ s, TaskCall.cmdH s ∉ (chatTask botCool [] 1 (msgOf "!ping")).calls) :=
  rate_limited_abort botCool [] 1 (msgOf "!ping") (by decide) rfl

/-- Counterexample to C4 as stated: `botCool` has two matchers that both
match `!ping`, which is also a valid registered command, and the first
matcher is in cooldown at time 1.  The claim says only that match is
skipped while the second matcher and command dispatch proceed; the code
returns from the whole task: nothing is invoked and nothing is sent. -/
theorem rate_limited_skip_counterexample :
    (botCool.matchers.map (fun m => m.pat (msgOf "!ping").text)) = [true, true] ∧
    (getArgumentParser botCool "R").parse_args ["ping"] = .ok [] ∧
    (chatTask botCool [] 1 (msgOf "!ping")).calls = [] ∧
    (chatTask botCool [] 1 (msgOf "!ping")).replies = [] :=
  ⟨rfl, rfl, rfl, rfl⟩

/-- C6: a message authored by the bot itself, carrying an edit timestamp,
or carrying any reaction is dropped before any dispatch (lines 362 to
368): no handler runs, no reply is sent, no state changes. -/
theorem filtered_message_dropped (bot : Bot) (q : List String) (now : Int) (msg : Msg)
    (h : msg.username = bot.username ∨ msg.edited_at.isSome = true ∨ msg.reactions ≠ []) :
    chatTask bot q now msg = ⟨bot, q, [], [], false⟩ := by
  unfold chatTask
  rw [if_pos h]

/-- Witness for C6: a message authored by the bot account itself. -/
theorem filtered_message_dropped_witness :
    chatTask botPlain [] 0 ⟨"bot", none, [], "!ping", "R"⟩ = ⟨botPlain, [], [], [], false⟩ :=
  filtered_message_dropped botPlain [] 0 ⟨"bot", none, [], "!ping", "R"⟩ (Or.inl rfl)

/-- C5 (amended): when no matched pattern is rate limited, a message that
matches patterns and is a valid command invokes exactly the matching
pattern handlers, in registration order, followed by the command handler,
within the same execution unit. -/
theorem patterns_before_command (bot : Bot) (q : List String) (now : Int) (msg : Msg)
    (command : String) (rest : List String) (parsed : ParsedArgs) (c : Command)
    (hfilt : ¬(msg.username = bot.username ∨ msg.edited_at.isSome = true ∨ msg.reactions ≠ []))
    (habort : (matchLoop now msg bot.matchers).aborted = false)
    (hpre : startsWithStr msg.text bot.pre = true)
    (htok : tokenize (dropStr msg.text bot.pre.length) = command :: rest)
    (hhelp : ¬command = "help")
    (hparse : (getArgumentParser bot msg.room_id).parse_args (command :: rest) = .ok parsed)
    (hcmd : alookup command bot.commands = some c) :
    (chatTask bot q now msg).calls =
      (matchingIdxAux msg.text 0 bot.matchers).map TaskCall.matchH ++
        [TaskCall.cmdH command] := by
  have hmain := chatTask_normal bot q now msg hfilt habort
  have hcp := commandPhase_invokes bot q msg command rest parsed c hpre htok hhelp hparse hcmd
  have hcalls := matchLoopAux_no_abort_calls now msg bot.matchers 0 habort
  rw [hmain]
  simp only [hcp.1]
  rw [show (matchLoop now msg bot.matchers).calls = matchingIdxAux msg.text 0 bot.matchers
    from hcalls]

/-- Witness for the amended C5: two always-matching matchers (cooldown
elapsed) plus the valid command `!ping`. -/
theorem patterns_before_command_witness :
    (chatTask botCool [] 200 (msgOf "!ping")).calls =
      (matchingIdxAux (msgOf "!ping").text 0 botCool.matchers).map TaskCall.matchH ++
        [TaskCall.cmdH "ping"] :=
  patterns_before_command botCool [] 200 (msgOf "!ping") "ping" [] [] pingCommand
    (by decide) rfl (by decide) (by decide) (by decide) rfl rfl

/-- Counterexample to C5 as stated: at time 1 the message `!ping` matches
the (rate-limited, in-cooldown) first matcher of `botCool` and is a valid
registered command, yet neither any pattern handler nor the command
handler is invoked, because the rate limiter returns from the whole task. -/
theorem patterns_before_command_counterexample :
    (botCool.matchers.map (fun m => m.pat (msgOf "!ping").text)).head? = some true ∧
    alookup "ping" botCool.commands = some pingCommand ∧
    (chatTask botCool [] 1 (msgOf "!ping")).calls = [] :=
  ⟨rfl, rfl, rfl⟩

/-- C7 (amended): a prefixed message whose first token names no command
visible in the room (and is not `help`) gets exactly one reply, whose text
is the argument parser invalid-choice error listing the visible commands
(sent as `str(e)` at lines 421 to 424 because nothing was captured in the
queue), and no command handler is invoked.  The code never produces a
reply of the form `invalid command: ...`. -/
theorem unknown_command_reply (bot : Bot) (now : Int) (msg : Msg)
    (command : String) (rest : List String)
    (hfilt : ¬(msg.username = bot.username ∨ msg.edited_at.isSome = true ∨ msg.reactions ≠ []))
    (hnm : ∀ m ∈ bot.matchers, m.pat msg.text = false)
    (hpre : startsWithStr msg.text bot.pre = true)
    (htok : tokenize (dropStr msg.text bot.pre.length) = command :: rest)
    (hhelp : ¬command = "help")
    (hunk : alookup command (getArgumentParser bot msg.room_id).visible = none) :
    (chatTask bot [] now msg).replies =
      [(msg.room_id,
        invalidChoiceMsg command ((getArgumentParser bot msg.room_id).visible.map Prod.fst))] ∧
    (chatTask bot [] now msg).calls = [] := by
  have hparse : (getArgumentParser bot msg.room_id).parse_args (command :: rest) =
      .error (invalidChoiceMsg command
        ((getArgumentParser bot msg.room_id).visible.map Prod.fst)) := by
    simp [ArgumentParser.parse_args, hunk, ArgumentParser.error]
  have hcp := commandPhase_parse_error bot [] msg command rest _ hpre htok hhelp hparse
  have h := chatTask_nomatch bot [] now msg hfilt hnm
  rw [h, hcp]
  simp

/-- Witness for the amended C7: `!frobnicate` against the ping/timer
registry. -/
theorem unknown_command_reply_witness :
    (chatTask botPlain [] 0 (msgOf "!frobnicate")).replies =
      [((msgOf "!frobnicate").room_id,
        invalidChoiceMsg "frobnicate"
          ((getArgumentParser botPlain (msgOf "!frobnicate").room_id).visible.map Prod.fst))] ∧
    (chatTask botPlain [] 0 (msgOf "!frobnicate")).calls = [] :=
  unknown_command_reply botPlain 0 (msgOf "!frobnicate") "frobnicate" []
    (by decide) (by decide) (by decide) (by decide) (by decide) rfl

/-- Counterexample to C7 as stated: the single reply for `!frobnicate` is
the argparse invalid-choice text, which is not the claimed
`invalid command: ...` form (no such text exists anywhere in the code). -/
theorem invalid_command_text_counterexample :
    (chatTask botPlain [] 0 (msgOf "!frobnicate")).replies =
      [("R", "invalid choice: \x27frobnicate\x27 (choose from \x27ping\x27, \x27timer\x27)")] ∧
    (chatTask botPlain [] 0 (msgOf "!frobnicate")).replies ≠
      [("R", "invalid command: `frobnicate`")] ∧
    (chatTask botPlain [] 0 (msgOf "!frobnicate")).calls = [] := by
  refine ⟨rfl, by decide, rfl⟩

/-- C8: a command whose arguments fail to parse gets the captured error
text as its one reply (the parse failure raises through the adapter error
hook, is caught at line 420, and `str(e)` is sent because the queue is
empty), the handler is not invoked, the exception does not reach the outer
handler at line 437, the adapter error hook raises an exception carrying
exactly the message text, and the adapter exit hook never terminates the
process. -/
theorem parse_failure_recovered (bot : Bot) (now : Int) (msg : Msg)
    (command : String) (rest : List String) (e : String)
    (hfilt : ¬(msg.username = bot.username ∨ msg.edited_at.isSome = true ∨ msg.reactions ≠ []))
    (hnm : ∀ m ∈ bot.matchers, m.pat msg.text = false)
    (hpre : startsWithStr msg.text bot.pre = true)
    (htok : tokenize (dropStr msg.text bot.pre.length) = command :: rest)
    (hhelp : ¬command = "help")
    (hparse : (getArgumentParser bot msg.room_id).parse_args (command :: rest) = .error e) :
    (chatTask bot [] now msg).replies = [(msg.room_id, e)] ∧
    (chatTask bot [] now msg).calls = [] ∧
    (chatTask bot [] now msg).caught = false ∧
    (∀ (p : ArgumentParser) (message : String),
      (ArgumentParser.error p message : Except String ParsedArgs) = .error message) ∧
    (∀ (p : ArgumentParser) (status : Nat) (message : Option String),
      ArgumentParser.exit p status message = none) := by
  have hcp := commandPhase_parse_error bot [] msg command rest e hpre htok hhelp hparse
  have h := chatTask_nomatch bot [] now msg hfilt hnm
  rw [h, hcp]
  refine ⟨by simp, by simp, by simp, fun p message => rfl, fun p status message => rfl⟩

/-- Witness for C8: `!timer notanumber` — the `int` conversion of the
`duration` positional fails; the captured argparse text is the reply and
the timer handler never runs. -/
theorem parse_failure_recovered_witness :
    (chatTask botPlain [] 0 (msgOf "!timer notanumber")).replies =
      [((msgOf "!timer notanumber").room_id, invalidIntMsg "duration" "notanumber")] ∧
    (chatTask botPlain [] 0 (msgOf "!timer notanumber")).calls = [] ∧
    (chatTask botPlain [] 0 (msgOf "!timer notanumber")).caught = false ∧
    (∀ (p : ArgumentParser) (message : String),
      (ArgumentParser.error p message : Except String ParsedArgs) = .error message) ∧
    (∀ (p : ArgumentParser) (status : Nat) (message : Option String),
      ArgumentParser.exit p status message = none) :=
  parse_failure_recovered botPlain 0 (msgOf "!timer notanumber") "timer" ["notanumber"]
    (invalidIntMsg "duration" "notanumber")
    (by decide) (by decide) (by decide) (by decide) (by decide) rfl

/-- C10: `msg_q` is a class attribute of `ArgumentParser`, one queue for
the whole process.  First conjunct: a message captured through one parser
instance is retrieved by draining any other instance, in particular the
fresh per-dispatch parsers.  Second conjunct: a leftover message sitting
in the shared queue is relayed (fenced) by a later, unrelated dispatch
whose own parse failed — and it suppresses that dispatch error text,
because `send_enqueued_messages` finds the queue non-empty. -/
theorem shared_msg_queue :
    (∀ (p1 p2 : ArgumentParser) (q : List String) (m : String), m ≠ "" →
      p2.drainQ (p1.printMessage q m) = (q ++ [m], [])) ∧
    (∀ (bot : Bot) (now : Int) (msg : Msg) (command : String) (rest : List String)
      (e leftover : String),
      ¬(msg.username = bot.username ∨ msg.edited_at.isSome = true ∨ msg.reactions ≠ []) →
      (∀ m ∈ bot.matchers, m.pat msg.text = false) →
      startsWithStr msg.text bot.pre = true →
      tokenize (dropStr msg.text bot.pre.length) = command :: rest →
      ¬command = "help" →
      (getArgumentParser bot msg.room_id).parse_args (command :: rest) = .error e →
      (chatTask bot [leftover] now msg).replies =
        [(msg.room_id, "```\n" ++ leftover ++ "```")]) := by
  constructor
  · intro p1 p2 q m hm
    simp [ArgumentParser.printMessage, ArgumentParser.drainQ, hm]
  · intro bot now msg command rest e leftover hfilt hnm hpre htok hhelp hparse
    have hcp := commandPhase_parse_error bot [leftover] msg command rest e hpre htok hhelp hparse
    have h := chatTask_nomatch bot [leftover] now msg hfilt hnm
    rw [h, hcp]
    simp

/-- Witness for C10: a message captured through one fresh parser is
drained through another; a leftover queue entry is relayed by the
`!timer notanumber` dispatch instead of its own error text. -/
theorem shared_msg_queue_witness :
    (getArgumentParser botPlain "R2").drainQ
      ((getArgumentParser botPlain "R").printMessage [] "hello") = ([] ++ ["hello"], []) ∧
    (chatTask botPlain ["oops"] 0 (msgOf "!timer notanumber")).replies =
      [((msgOf "!timer notanumber").room_id, "```\n" ++ "oops" ++ "```")] :=
  ⟨shared_msg_queue.1 (getArgumentParser botPlain "R") (getArgumentParser botPlain "R2")
      [] "hello" (by decide),
    shared_msg_queue.2 botPlain 0 (msgOf "!timer notanumber") "timer" ["notanumber"]
      (invalidIntMsg "duration" "notanumber") "oops"
      (by decide) (by decide) (by decide) (by decide) (by decide) rfl⟩

/-- C9: registering a command with a zero-parameter handler raises
`ValueError` from `validate_args`; registering under an already-registered
name raises `ValueError` (line 269), so startup cannot complete; and a
successful registration keeps the registry keys unique. -/
theorem duplicate_registration_fatal (reg : List (String × Command))
    (command fname : String) (c : Command) (n : Nat) :
    (cmd reg command fname 0 c =
      .error ("Required argument `message` missing in the " ++ fname ++ "() cmd?")) ∧
    ((alookup command reg).isSome = true → 0 < n →
      cmd reg command fname n c = .error ("Multiple handlers defined for " ++ command)) ∧
    (∀ reg2, cmd reg command fname n c = .ok reg2 →
      (reg.map Prod.fst).Nodup → (reg2.map Prod.fst).Nodup) := by
  refine ⟨?_, ?_, ?_⟩
  · simp [cmd, validate_args]
  · intro hsome hn
    have hne : ¬n = 0 := by omega
    simp [cmd, validate_args, hne, hsome]
  · intro reg2 hok hnd
    by_cases hv : n = 0
    · subst hv
      simp [cmd, validate_args] at hok
    · by_cases hd : (alookup command reg).isSome = true
      · simp [cmd, validate_args, hv, hd] at hok
      · have hr : reg2 = reg ++ [(command, c)] := by
          simp [cmd, validate_args, hv, hd] at hok
          exact hok.symm
        have hnone : alookup command reg = none := by
          cases hl : alookup command reg with
          | none => rfl
          | some v2 => rw [hl] at hd; simp at hd
        have hnotin : command ∉ reg.map Prod.fst :=
          (alookup_eq_none_iff command reg).mp hnone
        rw [hr]
        simp [List.nodup_append, hnd, hnotin]

/-- Witness for C9: zero-arity rejection, duplicate `ping` rejection, and
a fresh `pong` registration keeping the keys unique. -/
theorem duplicate_registration_fatal_witness :
    (cmd regPT "ping" "ping_fn" 0 pingCommand =
      .error ("Required argument `message` missing in the " ++ "ping_fn" ++ "() cmd?")) ∧
    (cmd regPT "ping" "ping_fn" 1 pingCommand =
      .error ("Multiple handlers defined for " ++ "ping")) ∧
    ((regPT ++ [("pong", pingCommand)]).map Prod.fst).Nodup :=
  ⟨(duplicate_registration_fatal regPT "ping" "ping_fn" pingCommand 1).1,
    (duplicate_registration_fatal regPT "ping" "ping_fn" pingCommand 1).2.1 rfl (by decide),
    (duplicate_registration_fatal regPT "pong" "pong_fn" pingCommand 1).2.2
      (regPT ++ [("pong", pingCommand)]) rfl (by decide)⟩

theorem matchLoopAux_calls_lb (now : Int) (msg : Msg) :
    ∀ (specs : List MatchSpec) (i k : Nat),
    k ∈ (matchLoopAux now msg i specs).calls → i ≤ k := by
  intro specs
  induction specs with
  | nil => intro i k hk; simp [matchLoopAux] at hk
  | cons m rest ih =>
    intro i k hk
    by_cases hp : m.pat msg.text = true
    · by_cases hs : matchStepSkip m.rate_limit m.last_called now = true
      · simp [matchLoopAux, hp, hs] at hk
      · simp only [matchLoopAux, hp, if_true, hs, if_false, Bool.false_eq_true] at hk
        simp at hk
        rcases hk with hk | hk
        · omega
        · have := ih (i + 1) k hk
          omega
    · simp only [matchLoopAux, hp, if_false, Bool.false_eq_true] at hk
      have := ih (i + 1) k hk
      omega

theorem matchLoopAux_get (now : Int) (msg : Msg) :
    ∀ (specs : List MatchSpec) (i j : Nat) (m : MatchSpec),
    specs[j]? = some m →
    (((i + j) ∈ (matchLoopAux now msg i specs).calls ∧
        matchStepSkip m.rate_limit m.last_called now = false ∧
        (matchLoopAux now msg i specs).specs[j]? = some { m with last_called := some now })
      ∨ ((i + j) ∉ (matchLoopAux now msg i specs).calls ∧
        (matchLoopAux now msg i specs).specs[j]? = some m)) := by
  intro specs
  induction specs with
  | nil => intro i j m hj; simp at hj
  | cons m0 rest ih =>
    intro i j m hj
    by_cases hp : m0.pat msg.text = true
    · by_cases hs : matchStepSkip m0.rate_limit m0.last_called now = true
      · right
        constructor
        · simp [matchLoopAux, hp, hs]
        · simpa [matchLoopAux, hp, hs] using hj
      · cases j with
        | zero =>
          have hm : m0 = m := by simpa using hj
          subst hm
          left
          refine ⟨?_, ?_, ?_⟩
          · simp [matchLoopAux, hp, hs]
          · simpa using hs
          · simp [matchLoopAux, hp, hs]
        | succ j2 =>
          have hj2 : rest[j2]? = some m := by simpa using hj
          have harith : i + (j2 + 1) = (i + 1) + j2 := by omega
          rcases ih (i + 1) j2 m hj2 with ⟨hin, hskip, hget⟩ | ⟨hnin, hget⟩
          · left
            refine ⟨?_, hskip, ?_⟩
            · simp only [matchLoopAux, hp, if_true, hs, if_false, Bool.false_eq_true]
              rw [harith]
              exact List.mem_cons_of_mem i hin
            · simp only [matchLoopAux, hp, if_true, hs, if_false, Bool.false_eq_true]
              simpa using hget
          · right
            constructor
            · simp only [matchLoopAux, hp, if_true, hs, if_false, Bool.false_eq_true]
              intro hmem
              rcases List.mem_cons.mp hmem with heq | hmem2
              · omega
              · rw [harith] at hmem2
                exact hnin hmem2
            · simp only [matchLoopAux, hp, if_true, hs, if_false, Bool.false_eq_true]
              simpa using hget
    · cases j with
      | zero =>
        have hm : m0 = m := by simpa using hj
        subst hm
        right
        constructor
        · simp only [matchLoopAux, hp, if_false, Bool.false_eq_true]
          intro hmem
          have := matchLoopAux_calls_lb now msg rest (i + 1) (i + 0) hmem
          omega
        · simp [matchLoopAux, hp]
      | succ j2 =>
        have hj2 : rest[j2]? = some m := by simpa using hj
        have harith : i + (j2 + 1) = (i + 1) + j2 := by omega
        rcases ih (i + 1) j2 m hj2 with ⟨hin, hskip, hget⟩ | ⟨hnin, hget⟩
        · left
          refine ⟨?_, hskip, ?_⟩
          · simp only [matchLoopAux, hp, if_false, Bool.false_eq_true]
            rw [harith]
            exact hin
          · simp only [matchLoopAux, hp, if_false, Bool.false_eq_true]
            simpa using hget
        · right
          constructor
          · simp only [matchLoopAux, hp, if_false, Bool.false_eq_true]
            rw [harith]
            exact hnin
          · simp only [matchLoopAux, hp, if_false, Bool.false_eq_true]
            simpa using hget

theorem chatTask_matchers_get (bot : Bot) (q : List String) (now : Int) (msg : Msg)
    (j : Nat) (m : MatchSpec) (hj : bot.matchers[j]? = some m) :
    ((TaskCall.matchH j ∈ (chatTask bot q now msg).calls ∧
        matchStepSkip m.rate_limit m.last_called now = false ∧
        (chatTask bot q now msg).bot.matchers[j]? = some { m with last_called := some now })
      ∨ (TaskCall.matchH j ∉ (chatTask bot q now msg).calls ∧
        (chatTask bot q now msg).bot.matchers[j]? = some m)) := by
  by_cases hfilt : msg.username = bot.username ∨ msg.edited_at.isSome = true ∨ msg.reactions ≠ []
  · right
    unfold chatTask
    rw [if_pos hfilt]
    exact ⟨by simp, hj⟩
  · have hml := matchLoopAux_get now msg bot.matchers 0 j m hj
    rw [Nat.zero_add] at hml
    unfold chatTask
    rw [if_neg hfilt]
    by_cases hab : (matchLoop now msg bot.matchers).aborted = true
    · simp only [hab, if_true]
      rcases hml with ⟨hin, hskip, hget⟩ | ⟨hnin, hget⟩
      · left
        refine ⟨?_, hskip, hget⟩
        exact List.mem_map_of_mem TaskCall.matchH hin
      · right
        refine ⟨?_, hget⟩
        intro hmem
        rcases List.mem_map.mp hmem with ⟨a, ha, heq⟩
        cases heq
        exact hnin ha
    · simp only [hab, if_false, Bool.false_eq_true]
      rcases hml with ⟨hin, hskip, hget⟩ | ⟨hnin, hget⟩
      · left
        refine ⟨?_, hskip, hget⟩
        exact List.mem_append_left _ (List.mem_map_of_mem TaskCall.matchH hin)
      · right
        refine ⟨?_, hget⟩
        intro hmem
        rcases List.mem_append.mp hmem with hmem | hmem
        · rcases List.mem_map.mp hmem with ⟨a, ha, heq⟩
          cases heq
          exact hnin ha
        · rcases hcpi : (commandPhase { bot with
              matchers := (matchLoop now msg bot.matchers).specs } q msg).invoked with _ | nm
          · rw [hcpi] at hmem
            simp at hmem
          · rw [hcpi] at hmem
            simp at hmem

theorem triggerTimes_cons (i : Nat) (t : Int) (r : TaskResult)
    (evs : List (Int × TaskResult)) :
    triggerTimes i ((t, r) :: evs) =
      if TaskCall.matchH i ∈ r.calls then t :: triggerTimes i evs
      else triggerTimes i evs := by
  by_cases h : TaskCall.matchH i ∈ r.calls <;>
    simp [triggerTimes, List.filter_cons, h]

theorem runTrace_cooldown (i : Nat) (c : Int) (hc : 0 ≤ c) :
    ∀ (msgs : List (Int × Msg)) (bot : Bot) (q : List String) (m : MatchSpec)
      (trigs : List Int),
    bot.matchers[i]? = some m → m.rate_limit = some c →
    m.last_called = trigs.getLast? →
    List.Pairwise (fun a b => a + c ≤ b) trigs →
    (∀ x ∈ trigs, ∀ L, trigs.getLast? = some L → x ≤ L) →
    (List.Pairwise (fun a b => a + c ≤ b)
        (trigs ++ triggerTimes i (runTrace bot q msgs).2) ∧
      (∀ x ∈ trigs ++ triggerTimes i (runTrace bot q msgs).2, ∀ L,
        (trigs ++ triggerTimes i (runTrace bot q msgs).2).getLast? = some L → x ≤ L) ∧
      ∃ m2, (runTrace bot q msgs).1.matchers[i]? = some m2 ∧ m2.rate_limit = some c ∧
        m2.last_called = (trigs ++ triggerTimes i (runTrace bot q msgs).2).getLast?) := by
  intro msgs
  induction msgs with
  | nil =>
    intro bot q m trigs hj hrl hlc hpw hlb
    simp only [runTrace, triggerTimes, List.filter_nil, List.map_nil, List.append_nil]
    exact ⟨hpw, hlb, m, hj, hrl, hlc⟩
  | cons tm rest ih =>
    intro bot q m trigs hj hrl hlc hpw hlb
    obtain ⟨t, msg0⟩ := tm
    rcases chatTask_matchers_get bot q t msg0 i m hj with ⟨hin, hskip, hget⟩ | ⟨hnin, hget⟩
    · have hbound : ∀ x ∈ trigs, x + c ≤ t := by
        intro x hx
        cases htr : trigs.getLast? with
        | none =>
          have hnil : trigs = [] := List.getLast?_eq_none_iff.mp htr
          subst hnil
          simp at hx
        | some L =>
          have hxL : x ≤ L := hlb x hx L htr
          have hLt : L + c ≤ t := by
            have hsk := hskip
            rw [hrl, hlc, htr] at hsk
            simp [matchStepSkip] at hsk
            omega
          omega
      have hpw2 : List.Pairwise (fun a b => a + c ≤ b) (trigs ++ [t]) := by
        rw [List.pairwise_append]
        refine ⟨hpw, by simp, ?_⟩
        intro x hx b hb
        simp only [List.mem_singleton] at hb
        subst hb
        exact hbound x hx
      have hlb2 : ∀ x ∈ trigs ++ [t], ∀ L, (trigs ++ [t]).getLast? = some L → x ≤ L := by
        intro x hx L hL
        rw [List.getLast?_concat] at hL
        cases hL
        rcases List.mem_append.mp hx with hx2 | hx2
        · have := hbound x hx2
          omega
        · simp only [List.mem_singleton] at hx2
          subst hx2
          omega
      have hrl2 : ({ m with last_called := some t } : MatchSpec).rate_limit = some c := by
        simpa using hrl
      have hlc2 : ({ m with last_called := some t } : MatchSpec).last_called =
          (trigs ++ [t]).getLast? := by
        simp [List.getLast?_concat]
      have H := ih (chatTask bot q t msg0).bot (chatTask bot q t msg0).q
        { m with last_called := some t } (trigs ++ [t]) hget hrl2 hlc2 hpw2 hlb2
      have hassoc : ∀ X : List Int, trigs ++ t :: X = (trigs ++ [t]) ++ X := by
        intro X
        rw [← List.singleton_append, ← List.append_assoc]
      simp only [runTrace]
      rw [triggerTimes_cons, if_pos hin, hassoc]
      exact H
    · have H := ih (chatTask bot q t msg0).bot (chatTask bot q t msg0).q m trigs
        hget hrl hlc hpw hlb
      simp only [runTrace]
      rw [triggerTimes_cons, if_neg hnin]
      exact H

/-- C3: along any dispatched trace, for a matcher registered with cooldown
`c` and no prior trigger, any two of its handler invocations are at least
`c` apart (`List.Pairwise`), regardless of how many matching messages
arrive in between; and `last_called` always equals the time of the last
successful trigger — a skipped (rate-limited) evaluation never resets it. -/
theorem cooldown_separation (bot : Bot) (q : List String) (msgs : List (Int × Msg))
    (i : Nat) (c : Int) (m : MatchSpec)
    (hc : 0 ≤ c) (hm : bot.matchers[i]? = some m) (hrl : m.rate_limit = some c)
    (hlc : m.last_called = none) :
    List.Pairwise (fun a b => a + c ≤ b) (triggerTimes i (runTrace bot q msgs).2) ∧
    ∃ m2, (runTrace bot q msgs).1.matchers[i]? = some m2 ∧ m2.rate_limit = some c ∧
      m2.last_called = (triggerTimes i (runTrace bot q msgs).2).getLast? := by
  have H := runTrace_cooldown i c hc msgs bot q m [] hm hrl (by simpa using hlc)
    (by simp) (by simp)
  simp only [List.nil_append] at H
  exact ⟨H.1, H.2.2⟩

/-- Witness for C3: one matcher with cooldown 100, messages dispatched at
times 0, 50, 100 and 250 (the evaluations at 0, 100 and 250 trigger, the
one at 50 is rate limited). -/
theorem cooldown_separation_witness :
    List.Pairwise (fun a b => a + 100 ≤ b)
      (triggerTimes 0 (runTrace botTrace []
        [(0, msgOf "hello"), (50, msgOf "hello"),
          (100, msgOf "hello"), (250, msgOf "hello")]).2) ∧
    ∃ m2, (runTrace botTrace []
        [(0, msgOf "hello"), (50, msgOf "hello"),
          (100, msgOf "hello"), (250, msgOf "hello")]).1.matchers[0]? = some m2 ∧
      m2.rate_limit = some 100 ∧
      m2.last_called = (triggerTimes 0 (runTrace botTrace []
        [(0, msgOf "hello"), (50, msgOf "hello"),
          (100, msgOf "hello"), (250, msgOf "hello")]).2).getLast? :=
  cooldown_separation botTrace []
    [(0, msgOf "hello"), (50, msgOf "hello"), (100, msgOf "hello"), (250, msgOf "hello")]
    0 100 mCool0 (by decide) rfl rfl rfl

end RocketChatBot
